import Mathlib

/-!
Shallow embedding of `src/api/routers/areas.py` from the
smart-social-distancing repository: the area CRUD handlers over the
section-indexed config store and the per-area occupancy-rule JSON
sidecar files, together with the collaborators they use.

Collaborators that live outside `src/` (`api/utils`, `api/models`,
`.cameras`, `constants`) are modelled from the spec and marked as such
in their doc comments.  Everything else is translated directly from
`areas.py`.
-/

set_option autoImplicit false

deriving instance DecidableEq for Except

namespace Areas

/-- An occupancy rule as an opaque record: the handlers move rule lists
around whole, never inspecting an individual rule. -/
structure OccupancyRule where
  payload : String
deriving DecidableEq

/-- A JSON value stored in an area's sidecar document: either the list
under the `occupancy_rules` key or some other value the handlers never
inspect. -/
inductive JVal where
  | rulesVal (r : List OccupancyRule)
  | strVal (s : String)
deriving DecidableEq

/-- A parsed JSON object: ordered key/value pairs with unique keys,
mirroring a Python `dict` loaded by `json.load`. -/
abbrev Json : Type := List (String × JVal)

/-- `d[k]` lookup on a Python dict. -/
def getKey (d : Json) (k : String) : Option JVal :=
  match d with
  | [] => none
  | (k₀, v₀) :: rest => if k₀ = k then some v₀ else getKey rest k

/-- `k in d` on a Python dict. -/
def hasKey (d : Json) (k : String) : Bool :=
  (getKey d k).isSome

/-- `d[k] = v` on a Python dict: overwrite in place, append if absent. -/
def setKey (d : Json) (k : String) (v : JVal) : Json :=
  match d with
  | [] => [(k, v)]
  | (k₀, v₀) :: rest => if k₀ = k then (k, v) :: rest else (k₀, v₀) :: setKey rest k v

/-- `del d[k]` on a Python dict (the caller checks presence; on a dict
the key occurs at most once, so removing every occurrence agrees). -/
def delKey (d : Json) (k : String) : Json :=
  d.filter (fun p => p.1 ≠ k)

/-- Content of an area's sidecar file: a parsed JSON document, or the
empty file left behind when a write was truncated by `open(path, "w")`
and the subsequent `json.dump` never ran. -/
inductive FileContent where
  | jsonDoc (d : Json)
  | truncated
deriving DecidableEq

/-- The sidecar file store, keyed by area id (each area's config path
`get_area_config_path(area_id)` is namespaced by its id). -/
abbrev SidecarStore : Type := List (String × FileContent)

/-- `os.path.exists` / `json.load` on the sidecar path of an area. -/
def fsGet (fs : SidecarStore) (a : String) : Option FileContent :=
  match fs with
  | [] => none
  | (a₀, c₀) :: rest => if a₀ = a then some c₀ else fsGet rest a

/-- Writing the sidecar file of an area (create or overwrite). -/
def fsSet (fs : SidecarStore) (a : String) (c : FileContent) : SidecarStore :=
  match fs with
  | [] => [(a, c)]
  | (a₀, c₀) :: rest => if a₀ = a then (a, c) :: rest else (a₀, c₀) :: fsSet rest a c

/-- An area section as stored in the config file, i.e. the output of
`map_to_config_file_format`.  Modelled from the spec: the Area Mapper
(`api/utils`, not under `src/`) serializes the DTO fields, the camera
list staying a comma-joined string; the occupancy-rules field is
stripped before writing. -/
structure AreaSection where
  id : String
  name : String
  violation_threshold : Int
  notify_every_minutes : Int
  emails : String
  enable_slack_notifications : Bool
  daily_report : Bool
  daily_report_time : String
  occupancy_threshold : Int
  cameras : String
deriving DecidableEq

/-- A video-source section, of which the handlers only read the camera
id (via `map_camera` / `get_video_sources`). -/
structure CameraSection where
  id : String
deriving DecidableEq

/-- One entry of the flat config store: the Python dict maps section
names to sections, the names being `Area_<i>`, `Source_<i>`, or some
other section the area router never touches.  `Entry` fuses the parsed
key with its section. -/
inductive Entry where
  | area (i : Nat) (a : AreaSection)
  | source (i : Nat) (c : CameraSection)
  | other (name : String)
deriving DecidableEq

/-- A section name, as matched by `startswith("Area_")` etc. -/
inductive SectionKey where
  | area (i : Nat)
  | source (i : Nat)
  | other (name : String)
deriving DecidableEq

def Entry.key : Entry → SectionKey
  | .area i _ => .area i
  | .source i _ => .source i
  | .other n => .other n

/-- The config store contents, in dict (insertion) order. -/
abbrev ConfigDict : Type := List Entry

/-- The sections `startswith("Area_")`, each mapped through the Area
Mapper, keeping their key index: the list `areas` that `get_areas`,
`create_area`, `edit_area` and `delete_area` all build. -/
def areaList (cfg : ConfigDict) : List (Nat × AreaSection) :=
  cfg.filterMap (fun e => match e with
    | .area i a => some (i, a)
    | _ => none)

/-- The ids of all stored areas, in store order. -/
def areaIds (cfg : ConfigDict) : List String :=
  (areaList cfg).map (fun p => p.2.id)

/-- The sections `startswith("Source_")` mapped through `map_camera`:
the registered cameras. -/
def sourceList (cfg : ConfigDict) : List CameraSection :=
  cfg.filterMap (fun e => match e with
    | .source _ c => some c
    | _ => none)

/-- The ids of all registered cameras (`camera_ids`). -/
def cameraIds (cfg : ConfigDict) : List String :=
  (sourceList cfg).map (fun c => c.id)

/-- `config_dict[f"Area_{n}"] = a`: overwrite the section with that key
in place, or append it at the end of the dict. -/
def setArea (cfg : ConfigDict) (n : Nat) (a : AreaSection) : ConfigDict :=
  match cfg with
  | [] => [.area n a]
  | e :: rest =>
    if e.key = .area n then .area n a :: rest else e :: setArea rest n a

/-- `True` iff the dict has a key `Area_{n}`. -/
def hasAreaKey (cfg : ConfigDict) (n : Nat) : Bool :=
  cfg.any (fun e => e.key = .area n)

/-- `config_dict.pop(f"Area_{n}")` after a successful presence check:
remove the section with that key. -/
def popArea (cfg : ConfigDict) (n : Nat) : ConfigDict :=
  cfg.filter (fun e => e.key ≠ .area n)

/-- Modelled from the spec: `reestructure_areas` (`api/utils`, not under
`src/`) renumbers the remaining area sections contiguously from 0,
preserving their relative order and leaving other sections in place. -/
def renumberFrom (cfg : ConfigDict) (n : Nat) : ConfigDict :=
  match cfg with
  | [] => []
  | .area _ a :: rest => .area n a :: renumberFrom rest (n + 1)
  | e :: rest => e :: renumberFrom rest n

/-- Modelled from the spec: `reestructure_areas` renumbers area section
indices to be contiguous and zero-based. -/
def reestructure_areas (cfg : ConfigDict) : ConfigDict :=
  renumberFrom cfg 0

/-- Modelled from the spec: the reserved id token `ALL_AREAS` from
`constants` (not under `src/`), the "reserved \x7bid\x7d ALL" of the spec. -/
def ALL_AREAS : String := "ALL"

/-- Python `str.upper()`, modelled as per-character uppercasing (area
ids and the reserved token are ASCII). -/
def pyUpper (s : String) : String := ⟨s.data.map Char.toUpper⟩

/-- Helper for `pySplitComma`: walks the character list accumulating the
current (reversed) chunk. -/
def splitCommaAux : List Char → List Char → List String
  | [], acc => [⟨acc.reverse⟩]
  | c :: cs, acc =>
    if c = ',' then (⟨acc.reverse⟩ : String) :: splitCommaAux cs []
    else splitCommaAux cs (c :: acc)

/-- Python `s.split(",")`, modelled over the character list (on the
empty string it yields `[""]`, exactly as Python does). -/
def pySplitComma (s : String) : List String := splitCommaAux s.data []

/-- The request/response body `AreaConfigDTO` (`api/models/area`, not
under `src/`).  Modelled from the spec: id, name, violation_threshold,
notify_every_minutes, emails, enable_slack_notifications, daily_report,
daily_report_time, occupancy_threshold, cameras (comma-separated ids),
occupancy_rules (optional list of rule objects). -/
structure AreaConfigDTO where
  id : String
  name : String
  violation_threshold : Int
  notify_every_minutes : Int
  emails : String
  enable_slack_notifications : Bool
  daily_report : Bool
  daily_report_time : String
  occupancy_threshold : Int
  cameras : String
  occupancy_rules : Option (List OccupancyRule)
deriving DecidableEq

/-- Modelled from the spec: the Area Mapper direction `Area → section`
(`map_to_config_file_format` in `api/utils`): copies the DTO fields into
the config-file shape; the occupancy-rules field was already deleted by
the caller and is not written. -/
def map_to_config_file_format (a : AreaConfigDTO) : AreaSection :=
  { id := a.id
    name := a.name
    violation_threshold := a.violation_threshold
    notify_every_minutes := a.notify_every_minutes
    emails := a.emails
    enable_slack_notifications := a.enable_slack_notifications
    daily_report := a.daily_report
    daily_report_time := a.daily_report_time
    occupancy_threshold := a.occupancy_threshold
    cameras := a.cameras }

/-- The area resource shape the handlers return. -/
structure AreaResponse where
  id : String
  name : String
  violation_threshold : Int
  notify_every_minutes : Int
  emails : String
  enable_slack_notifications : Bool
  daily_report : Bool
  daily_report_time : String
  occupancy_threshold : Int
  cameras : String
  occupancy_rules : Option (List OccupancyRule)
deriving DecidableEq

/-- Modelled from the spec: the Area Mapper direction `section → Area`
(`map_section_from_config` in `api/utils`): total on any valid section,
round-tripping with the other direction modulo the occupancy-rules
field, which the section does not carry. -/
def map_section_from_config (a : AreaSection) : AreaResponse :=
  { id := a.id
    name := a.name
    violation_threshold := a.violation_threshold
    notify_every_minutes := a.notify_every_minutes
    emails := a.emails
    enable_slack_notifications := a.enable_slack_notifications
    daily_report := a.daily_report
    daily_report_time := a.daily_report_time
    occupancy_threshold := a.occupancy_threshold
    cameras := a.cameras
    occupancy_rules := none }

/-- The exceptions the handlers raise (`HTTPException` plus the Python
exceptions that escape uncaught): which exception is raised and the
structured content of its detail. -/
inductive ApiError where
  /-- 400, `bad_request_serializer("Area already exists",
  error_type="config duplicated area")`. -/
  | duplicatedArea
  /-- 400, `bad_request_serializer(..., error_type="Invalid ID")` for
  the reserved ALL id. -/
  | invalidIdAll
  /-- 404, detail `The area: ... does not exist`. -/
  | areaNotFound (area_id : String)
  /-- 404, detail listing the set of missing camera ids. -/
  | camerasNotFound (missing : List String)
  /-- An uncaught Python `KeyError` on the named key (HTTP 500). -/
  | keyError (key : String)
  /-- An uncaught `json.JSONDecodeError` from `json.load` (HTTP 500). -/
  | jsonDecodeError
  /-- An uncaught `FileNotFoundError` from `shutil.rmtree` on a missing
  directory (HTTP 500). -/
  | fileNotFoundError (p : String)
deriving DecidableEq

/-- The HTTP status each raised exception surfaces as. -/
def statusOf : ApiError → Nat
  | .duplicatedArea => 400
  | .invalidIdAll => 400
  | .areaNotFound _ => 404
  | .camerasNotFound _ => 404
  | .keyError _ => 500
  | .jsonDecodeError => 500
  | .fileNotFoundError _ => 500

/-- A handler's successful (non-raising) return value. -/
inductive HandlerOut where
  /-- An area DTO looked up from the freshly reloaded store (`None` when
  the lookup finds nothing). -/
  | areaOut (a : Option AreaResponse)
  /-- Modelled from the spec: `handle_response(payload, False, code)`
  reports a failed config save via a generic non-success response path
  rather than raising. -/
  | failOut (payload : Option AreaSection) (code : Nat)
  /-- `handle_response(None, True, 204)`: an empty 204 response. -/
  | noContentOut
deriving DecidableEq

/-- The state the handlers read and write: the config store, the
sidecar files, the two per-area directory trees, and the outcome the
external config save will report on this run. -/
structure SystemState where
  config : ConfigDict
  sidecars : SidecarStore
  logDirs : List String
  configDirs : List String
  saveOk : Bool
deriving DecidableEq

/-- Modelled from the spec: `update_config` (`api/utils`) persists the
given dict and optionally reboots the processor, reporting success; a
failed save leaves the store unchanged and is reported via the flag. -/
def update_config (s : SystemState) (cfg : ConfigDict) (reboot_processor : Bool) :
    Bool × SystemState :=
  if s.saveOk then (true, { s with config := cfg }) else (false, s)

/-- `Path(...).mkdir(parents=True, exist_ok=True)`: idempotent insert. -/
def dirAdd (l : List String) (x : String) : List String :=
  if l.contains x then l else l ++ [x]

/-- Python truthiness of the DTO's optional rules list: `None` and the
empty list are falsy. -/
def truthyRules : Option (List OccupancyRule) → Bool
  | some (_ :: _) => true
  | _ => false

/-- `set(split) - set(camera_ids)`: the referenced camera ids missing
from the store, as a duplicate-free list. -/
def missingCameras (split camera_ids : List String) : List String :=
  (split.filter (fun x => ¬ camera_ids.contains x)).dedup

/-- The sidecar-file effect of `set_occupancy_rules`: read the existing
JSON object (empty object when the file is absent; `json.load` raises on
a truncated file), set the `occupancy_rules` key, write the document
back. -/
def setRulesFS (fs : SidecarStore) (area_id : String) (rules : List OccupancyRule) :
    SidecarStore × Except ApiError Unit :=
  match fsGet fs area_id with
  | some .truncated => (fs, .error .jsonDecodeError)
  | some (.jsonDoc d) =>
    (fsSet fs area_id (.jsonDoc (setKey d "occupancy_rules" (.rulesVal rules))), .ok ())
  | none =>
    (fsSet fs area_id (.jsonDoc (setKey [] "occupancy_rules" (.rulesVal rules))), .ok ())

/-- `set_occupancy_rules(area_id, rules)`: creates the parent directory
of the area's config path, then performs the read-modify-write on the
sidecar file. -/
def set_occupancy_rules (s : SystemState) (area_id : String) (rules : List OccupancyRule) :
    SystemState × Except ApiError Unit :=
  let s₁ := { s with configDirs := dirAdd s.configDirs area_id }
  let (fs, r) := setRulesFS s₁.sidecars area_id rules
  ({ s₁ with sidecars := fs }, r)

/-- The sidecar-file effect of `delete_area_occupancy_rules`: when the
file is absent, return the non-raising response; otherwise load it
(`json.load` raises on a truncated file), then reopen it with
`open(path, "w")` — which truncates it — and run
`del data["occupancy_rules"]; json.dump(data, area_file)`.  When the
loaded document has no `occupancy_rules` key, the `del` raises
`KeyError` after the truncation and before the dump, leaving the file
empty. -/
def delRulesFS (fs : SidecarStore) (area_id : String) :
    SidecarStore × Except ApiError Unit :=
  match fsGet fs area_id with
  | none => (fs, .ok ())
  | some .truncated => (fs, .error .jsonDecodeError)
  | some (.jsonDoc d) =>
    if hasKey d "occupancy_rules" then
      (fsSet fs area_id (.jsonDoc (delKey d "occupancy_rules")), .ok ())
    else
      (fsSet fs area_id .truncated, .error (.keyError "occupancy_rules"))

/-- `delete_area_occupancy_rules(area_id)`. -/
def delete_area_occupancy_rules (s : SystemState) (area_id : String) :
    SystemState × Except ApiError Unit :=
  let (fs, r) := delRulesFS s.sidecars area_id
  ({ s with sidecars := fs }, r)

/-- `get_area_occupancy_rules(area_id)`: 404 when no stored area has the
id; empty list when the sidecar file is absent; otherwise the list under
the `occupancy_rules` key of the loaded document
(`OccupancyRuleListDTO.from_store_json` is modelled from the spec as
that projection, defaulting to the empty list). -/
def get_area_occupancy_rules (s : SystemState) (area_id : String) :
    Except ApiError (List OccupancyRule) :=
  if (areaIds s.config).contains area_id then
    match fsGet s.sidecars area_id with
    | none => .ok []
    | some .truncated => .error .jsonDecodeError
    | some (.jsonDoc d) =>
      .ok (match getKey d "occupancy_rules" with
        | some (.rulesVal r) => r
        | _ => [])
  else
    .error (.areaNotFound area_id)

/-- `get_areas()`: every `Area_` section mapped through the Area
Mapper, in store order. -/
def get_areas (s : SystemState) : List AreaResponse :=
  (areaList s.config).map (fun p => map_section_from_config p.2)

/-- `get_all_cameras_ids()`: the comma-joined ids of all registered
cameras (`get_cameras` of `.cameras`, not under `src/`, is modelled from
the spec as the camera-listing service over the video-source store). -/
def get_all_cameras_ids (s : SystemState) : String :=
  String.intercalate "," (cameraIds s.config)

/-- `all_cameras_area()`: the synthesized virtual area aggregating all
cameras. -/
def all_cameras_area (s : SystemState) : AreaResponse :=
  { violation_threshold := -1
    notify_every_minutes := -1
    emails := ""
    enable_slack_notifications := false
    daily_report := false
    daily_report_time := "N/A"
    occupancy_threshold := -1
    id := ALL_AREAS
    name := ALL_AREAS
    cameras := get_all_cameras_ids s
    occupancy_rules := none }

/-- `GET /areas/\x7barea_id\x7d`. -/
def get_area (s : SystemState) (area_id : String) : Except ApiError AreaResponse :=
  if pyUpper area_id = ALL_AREAS then
    .ok (all_cameras_area s)
  else
    match (get_areas s).find? (fun a => a.id == area_id) with
    | none => .error (.areaNotFound area_id)
    | some a =>
      match get_area_occupancy_rules s a.id with
      | .error e => .error e
      | .ok r => .ok { a with occupancy_rules := some r }

/-- `POST /areas` (`create_area`). -/
def create_area (s : SystemState) (new_area : AreaConfigDTO) (reboot_processor : Bool) :
    SystemState × Except ApiError HandlerOut :=
  let areas := areaList s.config
  if (areas.map (fun p => p.2.id)).contains new_area.id then
    (s, .error .duplicatedArea)
  else if pyUpper new_area.id = ALL_AREAS then
    (s, .error .invalidIdAll)
  else
    let camera_ids := cameraIds s.config
    let split := pySplitComma new_area.cameras
    if ¬ split.all (fun x => camera_ids.contains x) then
      (s, .error (.camerasNotFound (missingCameras split camera_ids)))
    else
      let occupancy_rules := new_area.occupancy_rules
      let area_dict := map_to_config_file_format new_area
      let cfg' := setArea s.config areas.length area_dict
      let (success, s₁) := update_config s cfg' reboot_processor
      let (s₂, r) :=
        if truthyRules occupancy_rules then
          set_occupancy_rules s₁ new_area.id (occupancy_rules.getD [])
        else (s₁, .ok ())
      match r with
      | .error e => (s₂, .error e)
      | .ok _ =>
        if ¬ success then
          (s₂, .ok (.failOut (some area_dict) 201))
        else
          let s₃ := { s₂ with
            logDirs := dirAdd s₂.logDirs new_area.id
            configDirs := dirAdd s₂.configDirs new_area.id }
          (s₃, .ok (.areaOut ((get_areas s₃).find? (fun a => a.id == area_dict.id))))

/-- `PUT /areas/\x7barea_id\x7d` (`edit_area`). -/
def edit_area (s : SystemState) (area_id : String) (edited_area : AreaConfigDTO)
    (reboot_processor : Bool) : SystemState × Except ApiError HandlerOut :=
  if pyUpper area_id = ALL_AREAS then
    (s, .error .invalidIdAll)
  else
    let edited := { edited_area with id := area_id }
    let areas := areaList s.config
    let areas_ids := areas.map (fun p => p.2.id)
    match areas_ids.findIdx? (fun x => x == area_id) with
    | none => (s, .error (.areaNotFound area_id))
    | some index =>
      let camera_ids := cameraIds s.config
      let split := pySplitComma edited.cameras
      if ¬ split.all (fun x => camera_ids.contains x) then
        (s, .error (.camerasNotFound (missingCameras split camera_ids)))
      else
        let occupancy_rules := edited.occupancy_rules
        let area_dict := map_to_config_file_format edited
        let cfg' := setArea s.config index area_dict
        let (success, s₁) := update_config s cfg' reboot_processor
        let (s₂, r) :=
          if truthyRules occupancy_rules then
            set_occupancy_rules s₁ edited.id (occupancy_rules.getD [])
          else
            delete_area_occupancy_rules s₁ area_id
        match r with
        | .error e => (s₂, .error e)
        | .ok _ =>
          if ¬ success then
            (s₂, .ok (.failOut (some area_dict) 200))
          else
            (s₂, .ok (.areaOut ((get_areas s₂).find? (fun a => a.id == area_id))))

/-- `DELETE /areas/\x7barea_id\x7d` (`delete_area`). -/
def delete_area (s : SystemState) (area_id : String) (reboot_processor : Bool) :
    SystemState × Except ApiError HandlerOut :=
  if pyUpper area_id = ALL_AREAS then
    (s, .error .invalidIdAll)
  else
    let areas := areaList s.config
    let areas_ids := areas.map (fun p => p.2.id)
    match areas_ids.findIdx? (fun x => x == area_id) with
    | none => (s, .error (.areaNotFound area_id))
    | some index =>
      if ¬ hasAreaKey s.config index then
        (s, .error (.keyError s!"Area_{index}"))
      else
        let cfg' := reestructure_areas (popArea s.config index)
        let (success, s₁) := update_config s cfg' reboot_processor
        let (s₂, r) := delete_area_occupancy_rules s₁ area_id
        match r with
        | .error e => (s₂, .error e)
        | .ok _ =>
          if ¬ s₂.logDirs.contains area_id then
            (s₂, .error (.fileNotFoundError area_id))
          else
            let s₃ := { s₂ with logDirs := s₂.logDirs.filter (fun x => x ≠ area_id) }
            if ¬ s₃.configDirs.contains area_id then
              (s₃, .error (.fileNotFoundError area_id))
            else
              let s₄ := { s₃ with configDirs := s₃.configDirs.filter (fun x => x ≠ area_id) }
              (s₄, .ok (if success then .noContentOut else .failOut none 204))

/-! ## Sample data for witnesses -/

def camEntry1 : Entry := .source 0 ⟨"cam1"⟩

def camEntry2 : Entry := .source 1 ⟨"cam2"⟩

def sampleSec : AreaSection :=
  ⟨"A1", "area one", 10, 5, "a@b.c", true, false, "06:00", 20, "cam1"⟩

def sampleState : SystemState :=
  ⟨[camEntry1, camEntry2, .area 0 sampleSec], [], ["A1"], ["A1"], true⟩

def sampleDTO : AreaConfigDTO :=
  ⟨"B1", "area two", 1, 2, "", false, false, "07:00", 3, "cam1,cam2", some [⟨"rule1"⟩]⟩

/-- A state whose sidecar file for `A1` exists but carries no
`occupancy_rules` key (as left behind by a previous rules deletion). -/
def noKeyState : SystemState :=
  ⟨[.area 0 sampleSec], [("A1", .jsonDoc [("other", .strVal "x")])], ["A1"], ["A1"], true⟩

/-- A state whose sidecar file for `A1` holds rules beside another key. -/
def keyState : SystemState :=
  ⟨[], [("A1", .jsonDoc [("occupancy_rules", .rulesVal [⟨"rule1"⟩]),
        ("other", .strVal "x")])], [], [], true⟩

/-- A state identical to `sampleState` except that the external config
save will report failure. -/
def failState : SystemState :=
  ⟨[camEntry1, camEntry2, .area 0 sampleSec], [], ["A1"], ["A1"], false⟩

/-- The spec's invariant: the area section indices are exactly
`0, 1, ..., n-1` in store order. -/
def contiguousAreas (cfg : ConfigDict) : Prop :=
  (areaList cfg).map Prod.fst = List.range (areaList cfg).length

/-! ## Basic lemmas about the store primitives -/

theorem fsGet_fsSet_self (fs : SidecarStore) (a : String) (c : FileContent) :
    fsGet (fsSet fs a c) a = some c := by
  induction fs with
  | nil => simp [fsGet, fsSet]
  | cons hd tl ih =>
    obtain ⟨a₀, c₀⟩ := hd
    by_cases h : a₀ = a <;> simp [fsGet, fsSet, h, ih]

theorem fsGet_fsSet_ne (fs : SidecarStore) (a a' : String) (c : FileContent)
    (h : a' ≠ a) : fsGet (fsSet fs a c) a' = fsGet fs a' := by
  have h₂ : a ≠ a' := fun hh => h hh.symm
  induction fs with
  | nil => simp [fsGet, fsSet, h₂]
  | cons hd tl ih =>
    obtain ⟨a₀, c₀⟩ := hd
    by_cases h₀ : a₀ = a
    · subst h₀
      simp [fsGet, fsSet, h₂]
    · simp [fsGet, fsSet, h₀, ih]

theorem getKey_setKey_self (d : Json) (k : String) (v : JVal) :
    getKey (setKey d k v) k = some v := by
  induction d with
  | nil => simp [getKey, setKey]
  | cons hd tl ih =>
    obtain ⟨k₀, v₀⟩ := hd
    by_cases h : k₀ = k <;> simp [getKey, setKey, h, ih]

theorem getKey_setKey_ne (d : Json) (k k' : String) (v : JVal)
    (h : k' ≠ k) : getKey (setKey d k v) k' = getKey d k' := by
  have h₂ : k ≠ k' := fun hh => h hh.symm
  induction d with
  | nil => simp [getKey, setKey, h₂]
  | cons hd tl ih =>
    obtain ⟨k₀, v₀⟩ := hd
    by_cases h₀ : k₀ = k
    · subst h₀
      simp [getKey, setKey, h₂]
    · simp [getKey, setKey, h₀, ih]

theorem getKey_delKey_self (d : Json) (k : String) :
    getKey (delKey d k) k = none := by
  induction d with
  | nil => simp [getKey, delKey]
  | cons hd tl ih =>
    obtain ⟨k₀, v₀⟩ := hd
    by_cases h : k₀ = k <;> simp [getKey, delKey, h, List.filter] at ih ⊢ <;>
      simpa [h] using ih

theorem hasKey_delKey_self (d : Json) (k : String) :
    hasKey (delKey d k) k = false := by
  simp [hasKey, getKey_delKey_self]

theorem getKey_delKey_ne (d : Json) (k k' : String) (h : k' ≠ k) :
    getKey (delKey d k) k' = getKey d k' := by
  have h' : ∀ x : String, x = k → x ≠ k' := by
    intro x hx
    subst hx
    exact fun hh => h hh.symm
  induction d with
  | nil => simp [getKey, delKey]
  | cons hd tl ih =>
    obtain ⟨k₀, v₀⟩ := hd
    simp only [delKey, List.filter] at ih ⊢
    by_cases h₀ : k₀ = k
    · have h₂ := h' k₀ h₀
      rw [h₀] at h₂
      simp [getKey, h₀, h₂]
      simpa using ih
    · by_cases h₁ : k₀ = k' <;> simp [getKey, h₀, h₁, h] <;> simpa using ih

/-! ## Claim theorems -/

/-- Claim C1: creating an area whose id equals, case-sensitively, the id of
an already-stored area fails with the duplicate-id error of the spec's
taxonomy (its "Conflict": `bad_request_serializer("Area already exists",
error_type="config duplicated area")`, surfaced as HTTP 400 per spec
section 6), and the whole system state - the config store included - is
left unchanged. -/
theorem create_area_duplicate_conflict (s : SystemState) (na : AreaConfigDTO) (rb : Bool)
    (h : (areaIds s.config).contains na.id = true) :
    create_area s na rb = (s, .error .duplicatedArea) ∧ statusOf .duplicatedArea = 400 := by
  constructor
  · have h' : na.id ∈ (areaList s.config).map (fun p => p.2.id) := by
      simpa [areaIds] using h
    unfold create_area
    simp [h']
  · rfl

theorem create_area_duplicate_conflict_witness :
    (areaIds sampleState.config).contains
        ({ sampleDTO with id := "A1" } : AreaConfigDTO).id = true ∧
    create_area sampleState { sampleDTO with id := "A1" } true =
      (sampleState, .error .duplicatedArea) :=
  ⟨by decide,
   (create_area_duplicate_conflict sampleState { sampleDTO with id := "A1" } true
     (by decide)).1⟩

/-- Claim C2 (counterexample): with the sidecar file present but lacking
the `occupancy_rules` key, deleting the area's occupancy rules does not
remove the key and rewrite the file: `del data["occupancy_rules"]` raises
`KeyError` after `open(path, "w")` has already truncated the file, so the
operation fails and the file is left empty. -/
theorem delete_rules_no_key_counterexample :
    fsGet noKeyState.sidecars "A1" = some (.jsonDoc [("other", .strVal "x")]) ∧
    (delete_area_occupancy_rules noKeyState "A1").2 =
      .error (.keyError "occupancy_rules") ∧
    fsGet (delete_area_occupancy_rules noKeyState "A1").1.sidecars "A1" =
      some .truncated := by
  decide

/-- Claim C2 (amended): deleting an area's occupancy rules behaves as: if
the sidecar file is absent, the operation is a no-op success; if the file
exists and its JSON document contains the `occupancy_rules` key, the key
is removed and the file rewritten (the file itself remains present); but
if the file exists without that key, the `del` raises `KeyError` after
`open(path, "w")` already truncated the file, leaving it empty. -/
theorem delete_area_occupancy_rules_spec (s : SystemState) (aid : String) :
    (fsGet s.sidecars aid = none →
      delete_area_occupancy_rules s aid = (s, .ok ())) ∧
    (∀ d, fsGet s.sidecars aid = some (.jsonDoc d) →
      hasKey d "occupancy_rules" = true →
      (delete_area_occupancy_rules s aid).2 = .ok () ∧
      fsGet (delete_area_occupancy_rules s aid).1.sidecars aid =
        some (.jsonDoc (delKey d "occupancy_rules")) ∧
      hasKey (delKey d "occupancy_rules") "occupancy_rules" = false) ∧
    (∀ d, fsGet s.sidecars aid = some (.jsonDoc d) →
      hasKey d "occupancy_rules" = false →
      (delete_area_occupancy_rules s aid).2 = .error (.keyError "occupancy_rules") ∧
      fsGet (delete_area_occupancy_rules s aid).1.sidecars aid = some .truncated) := by
  refine ⟨?_, ?_, ?_⟩
  · intro h
    simp [delete_area_occupancy_rules, delRulesFS, h]
  · intro d hd hk
    simp [delete_area_occupancy_rules, delRulesFS, hd, hk, fsGet_fsSet_self,
      hasKey_delKey_self]
  · intro d hd hk
    simp [delete_area_occupancy_rules, delRulesFS, hd, hk, fsGet_fsSet_self]

theorem delete_area_occupancy_rules_spec_witness :
    (delete_area_occupancy_rules keyState "A1").2 = .ok () ∧
    fsGet (delete_area_occupancy_rules keyState "A1").1.sidecars "A1" =
      some (.jsonDoc (delKey [("occupancy_rules", .rulesVal [⟨"rule1"⟩]),
        ("other", .strVal "x")] "occupancy_rules")) :=
  ⟨((delete_area_occupancy_rules_spec keyState "A1").2.1
      [("occupancy_rules", .rulesVal [⟨"rule1"⟩]), ("other", .strVal "x")]
      (by decide) (by decide)).1,
   ((delete_area_occupancy_rules_spec keyState "A1").2.1
      [("occupancy_rules", .rulesVal [⟨"rule1"⟩]), ("other", .strVal "x")]
      (by decide) (by decide)).2.1⟩

/-- Claim C3: `GET` of an area id equal, case-insensitively, to the
reserved ALL token returns the synthesized virtual area: its cameras field
is the comma-joined list of all registered camera ids, its numeric fields
(violation_threshold, notify_every_minutes, occupancy_threshold) are all
-1, its boolean flags all false.  The handler is read-only (its embedding
returns no new state), and the result does not depend on the stored areas:
it is determined by the camera ids alone, so no area-store lookup is
needed and nothing is persisted. -/
theorem get_area_all_token (s : SystemState) (aid : String)
    (h : pyUpper aid = ALL_AREAS) :
    get_area s aid = .ok (all_cameras_area s) ∧
    (all_cameras_area s).cameras = String.intercalate "," (cameraIds s.config) ∧
    (all_cameras_area s).violation_threshold = -1 ∧
    (all_cameras_area s).notify_every_minutes = -1 ∧
    (all_cameras_area s).occupancy_threshold = -1 ∧
    (all_cameras_area s).enable_slack_notifications = false ∧
    (all_cameras_area s).daily_report = false ∧
    (all_cameras_area s).id = ALL_AREAS ∧
    (∀ t : SystemState, cameraIds t.config = cameraIds s.config →
      all_cameras_area t = all_cameras_area s) := by
  refine ⟨?_, rfl, rfl, rfl, rfl, rfl, rfl, rfl, ?_⟩
  · simp [get_area, h]
  · intro t ht
    simp [all_cameras_area, get_all_cameras_ids, ht]

theorem get_area_all_token_witness :
    pyUpper "aLl" = ALL_AREAS ∧
    get_area sampleState "aLl" = .ok (all_cameras_area sampleState) ∧
    (all_cameras_area sampleState).cameras = "cam1,cam2" :=
  ⟨by decide, (get_area_all_token sampleState "aLl" (by decide)).1, by decide⟩

theorem mem_dirAdd_self (l : List String) (x : String) : x ∈ dirAdd l x := by
  by_cases h : l.contains x <;> simp_all [dirAdd, List.elem_iff]

theorem contains_dirAdd_self (l : List String) (x : String) :
    (dirAdd l x).contains x = true := by
  simpa [List.elem_iff] using mem_dirAdd_self l x

/-- Claim C7: saving occupancy rules for an area is a read-modify-write on
the sidecar JSON document: when no file exists, the parent directory is
created and the file is written holding exactly the `occupancy_rules` key;
when the file exists, only the `occupancy_rules` key is set or
overwritten, every other key of the document keeping its value.  Other
areas' sidecar files and the config store are untouched. -/
theorem set_occupancy_rules_rmw (s : SystemState) (aid : String)
    (rules : List OccupancyRule) :
    (fsGet s.sidecars aid = none →
      (set_occupancy_rules s aid rules).2 = .ok () ∧
      fsGet (set_occupancy_rules s aid rules).1.sidecars aid =
        some (.jsonDoc [("occupancy_rules", .rulesVal rules)]) ∧
      (set_occupancy_rules s aid rules).1.configDirs.contains aid = true) ∧
    (∀ d, fsGet s.sidecars aid = some (.jsonDoc d) →
      (set_occupancy_rules s aid rules).2 = .ok () ∧
      fsGet (set_occupancy_rules s aid rules).1.sidecars aid =
        some (.jsonDoc (setKey d "occupancy_rules" (.rulesVal rules))) ∧
      getKey (setKey d "occupancy_rules" (.rulesVal rules)) "occupancy_rules" =
        some (.rulesVal rules) ∧
      (∀ k, k ≠ "occupancy_rules" →
        getKey (setKey d "occupancy_rules" (.rulesVal rules)) k = getKey d k)) ∧
    (∀ a', a' ≠ aid →
      fsGet (set_occupancy_rules s aid rules).1.sidecars a' = fsGet s.sidecars a') ∧
    (set_occupancy_rules s aid rules).1.config = s.config := by
  refine ⟨?_, ?_, ?_, ?_⟩
  · intro h
    refine ⟨?_, ?_, ?_⟩ <;>
      simp [set_occupancy_rules, setRulesFS, h, fsGet_fsSet_self, setKey,
        mem_dirAdd_self]
  · intro d hd
    refine ⟨?_, ?_, ?_, ?_⟩
    · simp [set_occupancy_rules, setRulesFS, hd]
    · simp [set_occupancy_rules, setRulesFS, hd, fsGet_fsSet_self]
    · exact getKey_setKey_self d "occupancy_rules" (.rulesVal rules)
    · intro k hk
      exact getKey_setKey_ne d "occupancy_rules" k (.rulesVal rules) hk
  · intro a' ha
    cases hfs : fsGet s.sidecars aid with
    | none => simp [set_occupancy_rules, setRulesFS, hfs, fsGet_fsSet_ne _ _ _ _ ha]
    | some c =>
      cases c with
      | jsonDoc d =>
        simp [set_occupancy_rules, setRulesFS, hfs, fsGet_fsSet_ne _ _ _ _ ha]
      | truncated => simp [set_occupancy_rules, setRulesFS, hfs]
  · cases hfs : fsGet s.sidecars aid with
    | none => simp [set_occupancy_rules, setRulesFS, hfs]
    | some c =>
      cases c with
      | jsonDoc d => simp [set_occupancy_rules, setRulesFS, hfs]
      | truncated => simp [set_occupancy_rules, setRulesFS, hfs]

theorem set_occupancy_rules_rmw_witness :
    (set_occupancy_rules sampleState "B1" [⟨"rule1"⟩]).2 = .ok () ∧
    fsGet (set_occupancy_rules sampleState "B1" [⟨"rule1"⟩]).1.sidecars "B1" =
      some (.jsonDoc [("occupancy_rules", .rulesVal [⟨"rule1"⟩])]) ∧
    (set_occupancy_rules sampleState "B1" [⟨"rule1"⟩]).1.configDirs.contains "B1" = true :=
  (set_occupancy_rules_rmw sampleState "B1" [⟨"rule1"⟩]).1 (by decide)

/-- Claim C8: for every update request the id stored and returned is the
path parameter `area_id`, regardless of the id field in the request body:
`edited_area.id = area_id` runs before any validation or persistence, so
two bodies differing only in their id field produce identical runs, the
section written to the store carries the path id, and any area the
success response returns has the path id. -/
theorem edit_area_id_from_path (s : SystemState) (aid : String) (ea : AreaConfigDTO)
    (x : String) (rb : Bool) :
    edit_area s aid ea rb = edit_area s aid { ea with id := x } rb ∧
    (map_to_config_file_format { ea with id := aid }).id = aid ∧
    (∀ r, (get_areas (edit_area s aid ea rb).1).find? (fun a => a.id == aid) = some r →
      r.id = aid) := by
  refine ⟨rfl, rfl, ?_⟩
  intro r hr
  have h := List.find?_some hr
  simpa using h

theorem edit_area_id_from_path_witness :
    edit_area sampleState "A1" sampleDTO true =
      edit_area sampleState "A1" { sampleDTO with id := "ZZZ" } true ∧
    (get_areas (edit_area sampleState "A1" sampleDTO true).1).find?
        (fun a => a.id == "A1") =
      some (map_section_from_config (map_to_config_file_format
        { sampleDTO with id := "A1" })) ∧
    (map_section_from_config (map_to_config_file_format
        { sampleDTO with id := "A1" })).id = "A1" :=
  ⟨(edit_area_id_from_path sampleState "A1" sampleDTO "ZZZ" true).1,
   by decide,
   (edit_area_id_from_path sampleState "A1" sampleDTO "ZZZ" true).2.2
     (map_section_from_config (map_to_config_file_format { sampleDTO with id := "A1" }))
     (by decide)⟩

theorem delRulesFS_no_key (fs : SidecarStore) (aid : String) :
    ∀ d, fsGet (delRulesFS fs aid).1 aid = some (.jsonDoc d) →
      hasKey d "occupancy_rules" = false := by
  intro d h
  cases hfs : fsGet fs aid with
  | none =>
    simp only [delRulesFS, hfs] at h
    simp_all
  | some c =>
    cases c with
    | truncated =>
      simp only [delRulesFS, hfs] at h
      simp_all
    | jsonDoc d₀ =>
      by_cases hk : hasKey d₀ "occupancy_rules"
      · simp only [delRulesFS, hfs, hk, if_true] at h
        rw [fsGet_fsSet_self] at h
        simp at h
        rw [← h]
        exact hasKey_delKey_self d₀ "occupancy_rules"
      · simp only [delRulesFS, hfs, hk, Bool.false_eq_true, if_false] at h
        rw [fsGet_fsSet_self] at h
        simp at h

/-- Claim C10: an update whose payload carries an empty occupancy-rules
list takes the deletion path, never the save path: the sidecar store ends
exactly as `delete_area_occupancy_rules` leaves it, a deletion error is
the handler's error, and an empty rules list is never stored - any parsed
sidecar document left for the area lacks the `occupancy_rules` key. -/
theorem edit_area_empty_rules_deletes (s : SystemState) (aid : String)
    (ea : AreaConfigDTO) (rb : Bool) (i : Nat)
    (hall : ¬ pyUpper aid = ALL_AREAS)
    (hidx : ((areaList s.config).map (fun p => p.2.id)).findIdx? (fun x => x == aid) =
      some i)
    (hcam : (pySplitComma ea.cameras).all (fun x => (cameraIds s.config).contains x) =
      true)
    (hrules : ea.occupancy_rules = some []) :
    (edit_area s aid ea rb).1.sidecars = (delRulesFS s.sidecars aid).1 ∧
    (∀ e, (delRulesFS s.sidecars aid).2 = .error e →
      (edit_area s aid ea rb).2 = .error e) ∧
    (∀ d, fsGet (edit_area s aid ea rb).1.sidecars aid = some (.jsonDoc d) →
      hasKey d "occupancy_rules" = false) := by
  have key : ∀ d₂, fsGet (delRulesFS s.sidecars aid).1 aid = some (.jsonDoc d₂) →
      hasKey d₂ "occupancy_rules" = false := delRulesFS_no_key s.sidecars aid
  refine ⟨?_, ?_, ?_⟩ <;>
  · cases hsv : s.saveOk <;>
      rcases hq : delRulesFS s.sidecars aid with ⟨fs', r⟩ <;>
        cases r <;>
          simp_all [edit_area, hall, hidx, hcam, hrules, truthyRules, update_config,
            delete_area_occupancy_rules]

theorem edit_area_empty_rules_deletes_witness :
    (edit_area sampleState "A1" { sampleDTO with occupancy_rules := some [] }
        true).1.sidecars =
      (delRulesFS sampleState.sidecars "A1").1 :=
  (edit_area_empty_rules_deletes sampleState "A1"
    { sampleDTO with occupancy_rules := some [] } true 0
    (by decide) (by decide) (by decide) (by decide)).1

/-- Claim C9: create and update are not atomic across the two stores: the
sidecar write happens after the main config save and before the save's
success flag is inspected, so in every run where the save reports failure
and non-empty rules were supplied (and the prior sidecar file, if any, is
a parseable document), the handler returns the generic failure response
while the sidecar file already holds the new rules. -/
theorem sidecar_written_despite_failed_save (s : SystemState) (na ea : AreaConfigDTO)
    (aid : String) (rb : Bool) (r : OccupancyRule) (rs : List OccupancyRule) (i : Nat) :
    (s.saveOk = false →
      ((areaList s.config).map (fun p => p.2.id)).contains na.id = false →
      ¬ pyUpper na.id = ALL_AREAS →
      (pySplitComma na.cameras).all (fun x => (cameraIds s.config).contains x) = true →
      na.occupancy_rules = some (r :: rs) →
      fsGet s.sidecars na.id ≠ some .truncated →
      (create_area s na rb).2 =
        .ok (.failOut (some (map_to_config_file_format na)) 201) ∧
      ∃ d, fsGet (create_area s na rb).1.sidecars na.id = some (.jsonDoc d) ∧
        getKey d "occupancy_rules" = some (.rulesVal (r :: rs))) ∧
    (s.saveOk = false →
      ¬ pyUpper aid = ALL_AREAS →
      ((areaList s.config).map (fun p => p.2.id)).findIdx? (fun x => x == aid) =
        some i →
      (pySplitComma ea.cameras).all (fun x => (cameraIds s.config).contains x) = true →
      ea.occupancy_rules = some (r :: rs) →
      fsGet s.sidecars aid ≠ some .truncated →
      (edit_area s aid ea rb).2 =
        .ok (.failOut (some (map_to_config_file_format { ea with id := aid })) 200) ∧
      ∃ d, fsGet (edit_area s aid ea rb).1.sidecars aid = some (.jsonDoc d) ∧
        getKey d "occupancy_rules" = some (.rulesVal (r :: rs))) := by
  constructor
  · intro hsv hdup hall hcam hrules hfs
    have hdup' : ¬ na.id ∈ (areaList s.config).map (fun p => p.2.id) := by
      simpa using hdup
    have hcam' : ¬ ∃ x ∈ pySplitComma na.cameras, x ∉ cameraIds s.config := by
      push_neg
      simpa using hcam
    rcases hfs' : fsGet s.sidecars na.id with _ | c
    · refine ⟨?_, setKey [] "occupancy_rules" (.rulesVal (r :: rs)), ?_, ?_⟩ <;>
        simp [create_area, hdup', hall, hcam', hrules, truthyRules, update_config, hsv,
          set_occupancy_rules, setRulesFS, hfs', fsGet_fsSet_self, getKey_setKey_self]
    · cases c with
      | truncated => exact absurd hfs' hfs
      | jsonDoc d₀ =>
        refine ⟨?_, setKey d₀ "occupancy_rules" (.rulesVal (r :: rs)), ?_, ?_⟩ <;>
          simp [create_area, hdup', hall, hcam', hrules, truthyRules, update_config, hsv,
            set_occupancy_rules, setRulesFS, hfs', fsGet_fsSet_self, getKey_setKey_self]
  · intro hsv hall hidx hcam hrules hfs
    have hcam' : ¬ ∃ x ∈ pySplitComma ea.cameras, x ∉ cameraIds s.config := by
      push_neg
      simpa using hcam
    rcases hfs' : fsGet s.sidecars aid with _ | c
    · refine ⟨?_, setKey [] "occupancy_rules" (.rulesVal (r :: rs)), ?_, ?_⟩ <;>
        simp [edit_area, hall, hidx, hcam', hrules, truthyRules, update_config, hsv,
          set_occupancy_rules, setRulesFS, hfs', fsGet_fsSet_self, getKey_setKey_self]
    · cases c with
      | truncated => exact absurd hfs' hfs
      | jsonDoc d₀ =>
        refine ⟨?_, setKey d₀ "occupancy_rules" (.rulesVal (r :: rs)), ?_, ?_⟩ <;>
          simp [edit_area, hall, hidx, hcam', hrules, truthyRules, update_config, hsv,
            set_occupancy_rules, setRulesFS, hfs', fsGet_fsSet_self, getKey_setKey_self]

theorem sidecar_written_despite_failed_save_witness :
    (create_area failState sampleDTO true).2 =
      .ok (.failOut (some (map_to_config_file_format sampleDTO)) 201) ∧
    ∃ d, fsGet (create_area failState sampleDTO true).1.sidecars "B1" =
        some (.jsonDoc d) ∧
      getKey d "occupancy_rules" = some (.rulesVal [⟨"rule1"⟩]) :=
  (sidecar_written_despite_failed_save failState sampleDTO sampleDTO "A1" true
      ⟨"rule1"⟩ [] 0).1
    (by decide) (by decide) (by decide) (by decide) (by decide) (by decide)

theorem missingCameras_toFinset (split ids : List String) :
    (missingCameras split ids).toFinset = split.toFinset \ ids.toFinset := by
  ext x
  simp [missingCameras, List.mem_filter, List.elem_iff]

/-- Claim C5: a create or update whose payload references a camera id
absent from the camera store fails with NotFound whose detail carries
exactly the set difference of the referenced ids minus the existing
camera ids, and the whole state - no section written - is unchanged. -/
theorem missing_cameras_not_found (s : SystemState) (na ea : AreaConfigDTO)
    (aid : String) (rb : Bool) (i : Nat) :
    (((areaList s.config).map (fun p => p.2.id)).contains na.id = false →
      ¬ pyUpper na.id = ALL_AREAS →
      (pySplitComma na.cameras).all (fun x => (cameraIds s.config).contains x) =
        false →
      create_area s na rb =
        (s, .error (.camerasNotFound
          (missingCameras (pySplitComma na.cameras) (cameraIds s.config))))) ∧
    (¬ pyUpper aid = ALL_AREAS →
      ((areaList s.config).map (fun p => p.2.id)).findIdx? (fun x => x == aid) =
        some i →
      (pySplitComma ea.cameras).all (fun x => (cameraIds s.config).contains x) =
        false →
      edit_area s aid ea rb =
        (s, .error (.camerasNotFound
          (missingCameras (pySplitComma ea.cameras) (cameraIds s.config))))) ∧
    (∀ sp ids : List String, (missingCameras sp ids).toFinset =
      sp.toFinset \ ids.toFinset) ∧
    (∀ m, statusOf (.camerasNotFound m) = 404) := by
  refine ⟨?_, ?_, missingCameras_toFinset, fun _ => rfl⟩
  · intro hdup hall hcam
    have hdup' : ¬ na.id ∈ (areaList s.config).map (fun p => p.2.id) := by
      simpa using hdup
    have hcam' : ∃ x ∈ pySplitComma na.cameras, x ∉ cameraIds s.config := by
      simpa using hcam
    simp [create_area, hdup', hall, hcam']
  · intro hall hidx hcam
    have hcam' : ∃ x ∈ pySplitComma ea.cameras, x ∉ cameraIds s.config := by
      simpa using hcam
    simp [edit_area, hall, hidx, hcam']

theorem missing_cameras_not_found_witness :
    create_area sampleState { sampleDTO with cameras := "cam1,bogus,bogus" } true =
      (sampleState, .error (.camerasNotFound ["bogus"])) :=
  have h := (missing_cameras_not_found sampleState
    { sampleDTO with cameras := "cam1,bogus,bogus" } sampleDTO "A1" true 0).1
    (by decide) (by decide) (by decide)
  by
    rw [h]
    decide

theorem delete_area_occupancy_rules_config (s : SystemState) (aid : String) :
    (delete_area_occupancy_rules s aid).1.config = s.config := by
  rcases h : delRulesFS s.sidecars aid with ⟨fs, r⟩
  simp [delete_area_occupancy_rules, h]

theorem set_occupancy_rules_config (s : SystemState) (aid : String)
    (rules : List OccupancyRule) :
    (set_occupancy_rules s aid rules).1.config = s.config := by
  rcases h : setRulesFS s.sidecars aid rules with ⟨fs, r⟩
  simp [set_occupancy_rules, h]

/-- Claim C6: the update handler's validation order: a reserved id fails
with the Invalid-ID BadRequest for every state, before any store access;
otherwise an id matching no stored area fails with NotFound for every
body, so camera validation only happens after the area is found; and on a
successful save the area is persisted under the same section index it
already occupied. -/
theorem edit_area_validation_order (s : SystemState) (aid : String)
    (ea : AreaConfigDTO) (rb : Bool) (i : Nat) :
    (pyUpper aid = ALL_AREAS →
      edit_area s aid ea rb = (s, .error .invalidIdAll)) ∧
    (¬ pyUpper aid = ALL_AREAS →
      (areaIds s.config).contains aid = false →
      edit_area s aid ea rb = (s, .error (.areaNotFound aid))) ∧
    (¬ pyUpper aid = ALL_AREAS →
      ((areaList s.config).map (fun p => p.2.id)).findIdx? (fun x => x == aid) =
        some i →
      (pySplitComma ea.cameras).all (fun x => (cameraIds s.config).contains x) =
        false →
      edit_area s aid ea rb =
        (s, .error (.camerasNotFound
          (missingCameras (pySplitComma ea.cameras) (cameraIds s.config))))) ∧
    (¬ pyUpper aid = ALL_AREAS →
      ((areaList s.config).map (fun p => p.2.id)).findIdx? (fun x => x == aid) =
        some i →
      (pySplitComma ea.cameras).all (fun x => (cameraIds s.config).contains x) =
        true →
      s.saveOk = true →
      (edit_area s aid ea rb).1.config =
        setArea s.config i (map_to_config_file_format { ea with id := aid })) := by
  refine ⟨?_, ?_, ?_, ?_⟩
  · intro hall
    simp [edit_area, hall]
  · intro hall hmem
    have hmem' : aid ∉ (areaList s.config).map (fun p => p.2.id) := by
      simpa [areaIds, List.elem_iff] using hmem
    have hidx : ((areaList s.config).map (fun p => p.2.id)).findIdx?
        (fun x => x == aid) = none := by
      rw [List.findIdx?_eq_none_iff]
      intro x hx
      simp only [beq_eq_false_iff_ne, ne_eq]
      intro hxx
      exact hmem' (hxx ▸ hx)
    simp [edit_area, hall, hidx]
  · intro hall hidx hcam
    have hcam' : ∃ x ∈ pySplitComma ea.cameras, x ∉ cameraIds s.config := by
      simpa using hcam
    simp [edit_area, hall, hidx, hcam']
  · intro hall hidx hcam hsv
    have hcam' : ¬ ∃ x ∈ pySplitComma ea.cameras, x ∉ cameraIds s.config := by
      push_neg
      simpa using hcam
    have harea : ∀ t : SystemState,
        (if truthyRules ea.occupancy_rules then
          set_occupancy_rules t aid (ea.occupancy_rules.getD [])
        else delete_area_occupancy_rules t aid).1.config = t.config := by
      intro t
      by_cases ht : truthyRules ea.occupancy_rules = true
      · rw [if_pos ht]
        exact set_occupancy_rules_config t aid (ea.occupancy_rules.getD [])
      · rw [if_neg ht]
        exact delete_area_occupancy_rules_config t aid
    rcases hrun : (if truthyRules ea.occupancy_rules then
        set_occupancy_rules
          { s with config :=
              (setArea s.config i (map_to_config_file_format { ea with id := aid })) }
          aid (ea.occupancy_rules.getD [])
      else
        delete_area_occupancy_rules
          { s with config :=
              (setArea s.config i (map_to_config_file_format { ea with id := aid })) }
          aid) with ⟨s₂, rr⟩
    have hs₂ : s₂.config =
        setArea s.config i (map_to_config_file_format { ea with id := aid }) := by
      have h := harea
        { s with config :=
            (setArea s.config i (map_to_config_file_format { ea with id := aid })) }
      rw [hrun] at h
      exact h
    cases rr <;>
      simp_all [edit_area, hall, hidx, hcam', update_config, hsv, hrun]

theorem edit_area_validation_order_witness :
    edit_area sampleState "ALL" sampleDTO true = (sampleState, .error .invalidIdAll) ∧
    edit_area sampleState "nope" sampleDTO true =
      (sampleState, .error (.areaNotFound "nope")) ∧
    (edit_area sampleState "A1" sampleDTO true).1.config =
      setArea sampleState.config 0
        (map_to_config_file_format { sampleDTO with id := "A1" }) :=
  ⟨(edit_area_validation_order sampleState "ALL" sampleDTO true 0).1 (by decide),
   (edit_area_validation_order sampleState "nope" sampleDTO true 0).2.1
     (by decide) (by decide),
   (edit_area_validation_order sampleState "A1" sampleDTO true 0).2.2.2
     (by decide) (by decide) (by decide) (by decide)⟩

/-! ## Contiguity of area section indices -/

theorem areaList_cons_area (i : Nat) (a : AreaSection) (rest : ConfigDict) :
    areaList (.area i a :: rest) = (i, a) :: areaList rest := by
  simp [areaList]

theorem areaList_cons_source (i : Nat) (c : CameraSection) (rest : ConfigDict) :
    areaList (.source i c :: rest) = areaList rest := by
  simp [areaList]

theorem areaList_cons_other (nm : String) (rest : ConfigDict) :
    areaList (.other nm :: rest) = areaList rest := by
  simp [areaList]

theorem areaList_append (c₁ c₂ : ConfigDict) :
    areaList (c₁ ++ c₂) = areaList c₁ ++ areaList c₂ := by
  simp [areaList, List.filterMap_append]

theorem hasAreaKey_iff (cfg : ConfigDict) (n : Nat) :
    hasAreaKey cfg n = true ↔ n ∈ (areaList cfg).map Prod.fst := by
  induction cfg with
  | nil => simp [hasAreaKey, areaList]
  | cons e rest ih =>
    cases e with
    | area i a =>
      simp [hasAreaKey, Entry.key, areaList_cons_area, List.any_cons] at ih ⊢
      constructor
      · rintro (h | h)
        · exact Or.inl h.symm
        · exact Or.inr (ih.mp h)
      · rintro (h | h)
        · exact Or.inl h.symm
        · exact Or.inr (ih.mpr h)
    | source i c =>
      simpa [hasAreaKey, Entry.key, areaList_cons_source, List.any_cons] using ih
    | other nm =>
      simpa [hasAreaKey, Entry.key, areaList_cons_other, List.any_cons] using ih

theorem setArea_not_present (cfg : ConfigDict) (n : Nat) (a : AreaSection)
    (h : hasAreaKey cfg n = false) : setArea cfg n a = cfg ++ [.area n a] := by
  induction cfg with
  | nil => simp [setArea]
  | cons e rest ih =>
    simp only [hasAreaKey, List.any_cons, Bool.or_eq_false_iff] at h
    have h₁ : ¬ e.key = .area n := by
      intro hh
      simp [hh] at h
    have h₂ : hasAreaKey rest n = false := by
      simpa [hasAreaKey] using h.2
    simp [setArea, h₁, ih h₂]

theorem areaList_popArea (cfg : ConfigDict) (p : Nat) :
    areaList (popArea cfg p) = (areaList cfg).filter (fun q => ¬(q.1 = p)) := by
  induction cfg with
  | nil => rfl
  | cons e rest ih =>
    cases e with
    | area i a =>
      by_cases h : i = p <;>
        simp [popArea, Entry.key, areaList_cons_area, List.filter, h] at ih ⊢ <;>
          simpa [popArea] using ih
    | source i c =>
      simpa [popArea, Entry.key, areaList_cons_source] using ih
    | other nm =>
      simpa [popArea, Entry.key, areaList_cons_other] using ih

theorem areaList_renumberFrom (cfg : ConfigDict) :
    ∀ n, (areaList (renumberFrom cfg n)).map Prod.snd =
        (areaList cfg).map Prod.snd ∧
      (areaList (renumberFrom cfg n)).map Prod.fst =
        List.range' n (areaList cfg).length := by
  induction cfg with
  | nil => intro n; simp [renumberFrom, areaList]
  | cons e rest ih =>
    intro n
    cases e with
    | area i a =>
      have h := ih (n + 1)
      simp [renumberFrom, areaList_cons_area, h.1, h.2, List.range']
      rfl
    | source i c =>
      simpa [renumberFrom, areaList_cons_source] using ih n
    | other nm =>
      simpa [renumberFrom, areaList_cons_other] using ih n

theorem filter_fst_ne_eraseIdx (l : List (Nat × AreaSection)) :
    ∀ n p, l.map Prod.fst = List.range' n l.length → p < l.length →
      l.filter (fun q => ¬(q.1 = n + p)) = l.eraseIdx p := by
  induction l with
  | nil =>
    intro n p _ hp
    simp at hp
  | cons hd tl ih =>
    intro n p h hp
    obtain ⟨i₀, a₀⟩ := hd
    simp only [List.map_cons, List.length_cons, List.range'] at h
    obtain ⟨h₁, h₂⟩ := List.cons.inj h
    cases p with
    | zero =>
      have hall : ∀ q ∈ tl, ¬(q.1 = n + 0) := by
        intro q hq
        have : q.1 ∈ List.range' (n + 1) tl.length := by
          rw [← h₂]
          exact List.mem_map_of_mem Prod.fst hq
        have hge := (List.mem_range'_1.mp this).1
        omega
      have hfilter : tl.filter (fun q => ¬(q.1 = n + 0)) = tl := by
        rw [List.filter_eq_self]
        intro q hq
        simpa using hall q hq
      simp [List.filter, h₁, hfilter, List.eraseIdx]
      intro a b hab
      simpa using hall (a, b) hab
    | succ p' =>
      have hne : ¬(i₀ = n + (p' + 1)) := by
        omega
      have hrec := ih (n + 1) p' h₂ (by simpa using hp)
      have harith : n + 1 + p' = n + (p' + 1) := by omega
      rw [harith] at hrec
      simp [List.filter, hne, List.eraseIdx]
      simpa using hrec

theorem create_area_config_after (s : SystemState) (na : AreaConfigDTO) (rb : Bool)
    (hdup : ¬ na.id ∈ (areaList s.config).map (fun p => p.2.id))
    (hall : ¬ pyUpper na.id = ALL_AREAS)
    (hcam : ¬ ∃ x ∈ pySplitComma na.cameras, x ∉ cameraIds s.config)
    (hsv : s.saveOk = true) :
    (create_area s na rb).1.config =
      setArea s.config (areaList s.config).length (map_to_config_file_format na) := by
  have harea : ∀ t : SystemState,
      (if truthyRules na.occupancy_rules then
        set_occupancy_rules t na.id (na.occupancy_rules.getD [])
      else (t, Except.ok ())).1.config = t.config := by
    intro t
    by_cases ht : truthyRules na.occupancy_rules = true
    · rw [if_pos ht]
      exact set_occupancy_rules_config t na.id (na.occupancy_rules.getD [])
    · rw [if_neg ht]
  rcases hrun : (if truthyRules na.occupancy_rules then
      set_occupancy_rules
        { s with config :=
            (setArea s.config (areaList s.config).length (map_to_config_file_format na)) }
        na.id (na.occupancy_rules.getD [])
    else
      ({ s with config :=
          (setArea s.config (areaList s.config).length (map_to_config_file_format na)) },
        Except.ok ())) with ⟨s₂, rr⟩
  have hs₂ : s₂.config =
      setArea s.config (areaList s.config).length (map_to_config_file_format na) := by
    have h := harea
      { s with config :=
          (setArea s.config (areaList s.config).length (map_to_config_file_format na)) }
    rw [hrun] at h
    exact h
  cases rr with
  | error e =>
    simp_all [create_area, hall, hcam, update_config, hsv, hrun]
    rw [if_neg]
    · exact hs₂
    · intro hc
      have hmm : na.id ∈ (areaList s.config).map (fun p => p.2.id) := by
        simpa using hc
      obtain ⟨⟨i, a⟩, hmem, hid⟩ := List.mem_map.mp hmm
      exact hdup i a hmem hid
  | ok u =>
    simp_all [create_area, hall, hcam, update_config, hsv, hrun]
    rw [if_neg]
    intro hc
    have hmm : na.id ∈ (areaList s.config).map (fun p => p.2.id) := by
      simpa using hc
    obtain ⟨⟨i, a⟩, hmem, hid⟩ := List.mem_map.mp hmm
    exact hdup i a hmem hid

theorem delete_area_config_after (s : SystemState) (aid : String) (rb : Bool) (p : Nat)
    (hall : ¬ pyUpper aid = ALL_AREAS)
    (hidx : ((areaList s.config).map (fun q => q.2.id)).findIdx? (fun x => x == aid) =
      some p)
    (hkey : hasAreaKey s.config p = true)
    (hsv : s.saveOk = true) :
    (delete_area s aid rb).1.config = reestructure_areas (popArea s.config p) := by
  rcases hrun : delete_area_occupancy_rules
      { s with config := (reestructure_areas (popArea s.config p)) } aid with ⟨s₂, rr⟩
  have hs₂ : s₂.config = reestructure_areas (popArea s.config p) := by
    have h := delete_area_occupancy_rules_config
      { s with config := (reestructure_areas (popArea s.config p)) } aid
    rw [hrun] at h
    exact h
  cases rr with
  | error e => simp_all [delete_area, hall, hidx, hkey, update_config, hsv, hrun]
  | ok u =>
    simp_all [delete_area, hall, hidx, hkey, update_config, hsv, hrun]
    split
    · split <;> rfl
    · exact hs₂

/-- Claim C4: area section indices stay contiguous and zero-based across
every successful mutating operation: create stores the new area under the
section index equal to the prior number of areas (appending it, keeping
contiguity), and delete of the area at position `p` renumbers the
remaining sections to `0..n-2`, preserving their relative order. -/
theorem area_indices_contiguous (s : SystemState) (na : AreaConfigDTO) (aid : String)
    (rb : Bool) (p : Nat) (hcont : contiguousAreas s.config) (hsv : s.saveOk = true) :
    (((areaList s.config).map (fun q => q.2.id)).contains na.id = false →
      ¬ pyUpper na.id = ALL_AREAS →
      (pySplitComma na.cameras).all (fun x => (cameraIds s.config).contains x) =
        true →
      areaList (create_area s na rb).1.config =
        areaList s.config ++
          [((areaList s.config).length, map_to_config_file_format na)] ∧
      contiguousAreas (create_area s na rb).1.config) ∧
    (¬ pyUpper aid = ALL_AREAS →
      ((areaList s.config).map (fun q => q.2.id)).findIdx? (fun x => x == aid) =
        some p →
      (areaList (delete_area s aid rb).1.config).map Prod.snd =
        ((areaList s.config).eraseIdx p).map Prod.snd ∧
      contiguousAreas (delete_area s aid rb).1.config) := by
  constructor
  · intro hdup hall hcam
    have hdup' : ¬ na.id ∈ (areaList s.config).map (fun q => q.2.id) := by
      simpa using hdup
    have hcam' : ¬ ∃ x ∈ pySplitComma na.cameras, x ∉ cameraIds s.config := by
      push_neg
      simpa using hcam
    have hlen : hasAreaKey s.config (areaList s.config).length = false := by
      by_contra hb
      have hb' : hasAreaKey s.config (areaList s.config).length = true := by
        simpa using hb
      have hmem := (hasAreaKey_iff _ _).mp hb'
      rw [hcont] at hmem
      simp at hmem
    have hconf := create_area_config_after s na rb hdup' hall hcam' hsv
    rw [hconf, setArea_not_present s.config _ _ hlen]
    have h1 : areaList (s.config ++
        [Entry.area (areaList s.config).length (map_to_config_file_format na)]) =
        areaList s.config ++
          [((areaList s.config).length, map_to_config_file_format na)] := by
      rw [areaList_append]
      simp [areaList]
    refine ⟨h1, ?_⟩
    unfold contiguousAreas
    rw [h1]
    simp only [List.map_append, List.map_cons, List.map_nil, List.length_append,
      List.length_cons, List.length_nil]
    rw [hcont]
    have : (areaList s.config).length + (0 + 1) = (areaList s.config).length + 1 := by
      omega
    rw [this, ← List.range_succ]
  · intro hall hidx
    have hplt : p < (areaList s.config).length := by
      obtain ⟨hlt, -, -⟩ := List.findIdx?_eq_some_iff_getElem.mp hidx
      simpa using hlt
    have hkey : hasAreaKey s.config p = true := by
      rw [hasAreaKey_iff, hcont]
      exact List.mem_range.mpr hplt
    have hconf := delete_area_config_after s aid rb p hall hidx hkey hsv
    rw [hconf]
    have hpop : areaList (popArea s.config p) = (areaList s.config).eraseIdx p := by
      rw [areaList_popArea]
      have hcont' : (areaList s.config).map Prod.fst =
          List.range' 0 (areaList s.config).length := by
        rw [hcont, List.range_eq_range']
      have h := filter_fst_ne_eraseIdx (areaList s.config) 0 p hcont' hplt
      simpa using h
    have hren := areaList_renumberFrom (popArea s.config p) 0
    have hlen2 : (areaList (renumberFrom (popArea s.config p) 0)).length =
        (areaList (popArea s.config p)).length := by
      have hl := congrArg List.length hren.1
      simpa using hl
    constructor
    · unfold reestructure_areas
      rw [hren.1, hpop]
    · unfold contiguousAreas reestructure_areas
      rw [hren.2, hlen2, List.range_eq_range']

theorem area_indices_contiguous_witness :
    areaList (create_area sampleState sampleDTO true).1.config =
      areaList sampleState.config ++
        [((areaList sampleState.config).length, map_to_config_file_format sampleDTO)] ∧
    (areaList (delete_area sampleState "A1" true).1.config).map Prod.snd =
      ((areaList sampleState.config).eraseIdx 0).map Prod.snd :=
  ⟨((area_indices_contiguous sampleState sampleDTO "A1" true 0
      (by unfold contiguousAreas; decide) rfl).1
      (by decide) (by decide) (by decide)).1,
   ((area_indices_contiguous sampleState sampleDTO "A1" true 0
      (by unfold contiguousAreas; decide) rfl).2
      (by decide) (by decide)).1⟩

end Areas
